import Mathlib

/-!
# Verification of the trading-bot core (scheduler, state store, indicators)

Shallow embedding of the repository's core components:

* `src/bot/utils/indicators.ts` — pure indicator functions (`sma`, `ema`,
  `emaSeries`, `rsi`, `macd`).  JavaScript numbers are modelled as `ℚ`; the
  `NaN` "insufficient data" sentinel is modelled as `Option.none`.
* `src/bot/storage/state.ts` — the persisted bot state and its mutation
  operations (`updatePosition`, `recordTradePnl`, `checkDailyReset`,
  `loadState`).
* `src/bot/loop/scheduler.ts` — the fast per-symbol evaluation cycle
  (`evaluatePair`), trade completion (`completeTrade`, lines 291–316), the
  per-symbol circuit breaker, the portfolio execution paths
  (`executePortfolioBuy`, `executePortfolioSell`, `runPortfolioManager`),
  and the whole-cycle driver (`runLoop`, `runCycles`).
* `src/bot/loop/decision-engine.ts` — the `TradingDecisionSchema` bounds.
* `src/bot/loop/portfolio-manager.ts` — `parseRecommendations`.

External effects (market-data fetches, LLM calls, order placement) are
modelled as environment records passed to the step functions; each field
records the outcome the external call would have produced.
-/

namespace TradingBot

/-! ## Indicator library (`src/bot/utils/indicators.ts`) -/

/-- Source `sma(prices, period)`: mean of the last `period` values, `none` (NaN)
when there are fewer than `period` data points. -/
def sma (prices : List ℚ) (period : ℕ) : Option ℚ :=
  if prices.length < period then none
  else some ((prices.drop (prices.length - period)).sum / (period : ℚ))

/-- One step of the EMA recurrence `ema = price·k + ema·(1-k)`. -/
def emaStep (k e p : ℚ) : ℚ := p * k + e * (1 - k)

/-- Source `ema(prices, period)`: seeded with the SMA of the first `period` values,
then the recurrence applied left-to-right; `none` (NaN) if insufficient. -/
def ema (prices : List ℚ) (period : ℕ) : Option ℚ :=
  if prices.length < period then none
  else
    let k : ℚ := 2 / ((period : ℚ) + 1)
    let seed : ℚ := (prices.take period).sum / (period : ℚ)
    some ((prices.drop period).foldl (fun e p => emaStep k e p) seed)

/-- Source `emaSeries(prices, period)`: the single-pass EMA series.  Entry `i` for
`period ≤ i < n-1` holds the EMA of the prefix before `prices[i]`; the last
entry is overwritten with the final EMA; earlier entries are NaN (`none`).
Returns `[]` when `prices.length < period` (as the source does). -/
def emaSeries (prices : List ℚ) (period : ℕ) : List (Option ℚ) :=
  if prices.length < period then []
  else
    let k : ℚ := 2 / ((period : ℚ) + 1)
    let seed : ℚ := (prices.take period).sum / (period : ℚ)
    let rest := prices.drop period
    let vals := rest.scanl (fun e p => emaStep k e p) seed
    if rest.length = 0 then
      List.replicate (period - 1) none ++ [some seed]
    else
      List.replicate period none ++ (vals.take (rest.length - 1)).map some
        ++ [some (vals.getLastD 0)]

/-- The positive part of a price change (`change > 0 ? change : 0`). -/
def gainOf (c : ℚ) : ℚ := if 0 < c then c else 0

/-- The magnitude of a negative price change (`change < 0 ? |change| : 0`;
the seeding loop's `else` branch adds `|0| = 0` for a zero change, so the
same function describes both loops). -/
def lossOf (c : ℚ) : ℚ := if c < 0 then -c else 0

/-- Successive price deltas `prices[i+1] - prices[i]`. -/
def changesOf (prices : List ℚ) : List ℚ :=
  (prices.zip prices.tail).map (fun pr => pr.2 - pr.1)

/-- One Wilder smoothing step: weight `(period-1)/period` old,
`1/period` new. -/
def rsiSmoothStep (period : ℕ) (gl : ℚ × ℚ) (c : ℚ) : ℚ × ℚ :=
  ((gl.1 * ((period : ℚ) - 1) + gainOf c) / (period : ℚ),
   (gl.2 * ((period : ℚ) - 1) + lossOf c) / (period : ℚ))

/-- The smoothed `(avgGain, avgLoss)` pair of Wilder's RSI: seeded from the
first `period` deltas, then smoothed over the remaining deltas. -/
def rsiAverages (prices : List ℚ) (period : ℕ) : ℚ × ℚ :=
  let changes := changesOf prices
  let seedG := ((changes.take period).map gainOf).sum / (period : ℚ)
  let seedL := ((changes.take period).map lossOf).sum / (period : ℚ)
  (changes.drop period).foldl (rsiSmoothStep period) (seedG, seedL)

/-- Source `rsi(prices, period)`: Wilder's RSI; `none` (NaN) when
`prices.length < period + 1`; exactly `100` when the smoothed average loss
is zero. -/
def rsi (prices : List ℚ) (period : ℕ) : Option ℚ :=
  if prices.length < period + 1 then none
  else
    let gl := rsiAverages prices period
    if gl.2 = 0 then some 100
    else some (100 - 100 / (1 + gl.1 / gl.2))

/-- Result record of `macd`; each component is `none` when the source
computes NaN for it. -/
structure MacdResult where
  macd : Option ℚ
  signal : Option ℚ
  histogram : Option ℚ
deriving Repr, DecidableEq

/-- NaN-propagating subtraction (`NaN - x = NaN`). -/
def subOpt : Option ℚ → Option ℚ → Option ℚ
  | some a, some b => some (a - b)
  | _, _ => none

/-- Source `macd(prices, fast, slow, signal)`: MACD line as scalar EMA difference,
signal line as EMA over the aligned MACD series, histogram as their
difference. -/
def macd (prices : List ℚ) (fastPeriod slowPeriod signalPeriod : ℕ) : MacdResult :=
  let fastEma := ema prices fastPeriod
  let slowEma := ema prices slowPeriod
  let macdLine := subOpt fastEma slowEma
  let fs := emaSeries prices fastPeriod
  let ss := emaSeries prices slowPeriod
  let macdValues := (fs.zip ss).filterMap (fun pr => subOpt pr.1 pr.2)
  let signalLine :=
    if signalPeriod ≤ macdValues.length then ema macdValues signalPeriod else none
  { macd := macdLine, signal := signalLine, histogram := subOpt macdLine signalLine }

/-! ## State store (`src/bot/storage/state.ts`) -/

/-- An open position. -/
structure Position where
  symbol : String
  quantity : ℚ
  avgPrice : ℚ
deriving Repr, DecidableEq

/-- The persisted bot state (`BotState` in `state.ts`). -/
structure BotState where
  version : ℕ
  positions : List Position
  lastCheckTimes : List (String × String)
  cumulativePnl : ℚ
  dailyPnl : ℚ
  dailyLossCount : ℕ
  lastDailyReset : String
  errorCounts : List (String × ℕ)
  emergencyStop : Bool
  lastUpdated : String
deriving Repr, DecidableEq

/-- Source `state.positions.find(p => p.symbol === symbol)`. -/
def findPosition (positions : List Position) (symbol : String) : Option Position :=
  positions.find? (fun p => p.symbol == symbol)

/-- JavaScript's in-place mutation of the first matching array element. -/
def updateFirstMatching : List Position → String → (Position → Position) → List Position
  | [], _, _ => []
  | p :: ps, sym, f =>
      if p.symbol == sym then f p :: ps else p :: updateFirstMatching ps sym f

/-- Source `updatePosition(state, symbol, quantity, price)`: a non-positive
`quantity` removes the symbol's position (if any); otherwise an existing
position accumulates with weighted-average price, and a missing one is
appended. -/
def updatePosition (state : BotState) (symbol : String) (quantity price : ℚ) : BotState :=
  let existing := findPosition state.positions symbol
  if quantity ≤ 0 then
    if existing.isSome then
      { state with positions := state.positions.filter (fun p => p.symbol != symbol) }
    else state
  else
    match existing with
    | some ex =>
        let totalQty := ex.quantity + quantity
        let totalValue := ex.quantity * ex.avgPrice + quantity * price
        { state with
            positions := updateFirstMatching state.positions symbol
              (fun p => { p with avgPrice := totalValue / totalQty, quantity := totalQty }) }
    | none =>
        { state with
            positions := state.positions ++ [{ symbol := symbol, quantity := quantity, avgPrice := price }] }

/-- Source `recordTradePnl(state, pnl)`. -/
def recordTradePnl (state : BotState) (pnl : ℚ) : BotState :=
  { state with
      cumulativePnl := state.cumulativePnl + pnl,
      dailyPnl := state.dailyPnl + pnl,
      dailyLossCount :=
        if pnl < 0 then state.dailyLossCount + 1 else state.dailyLossCount }

/-- Source `checkDailyReset(state)` with the current calendar date passed
explicitly: zero the daily counters when the stored date differs. -/
def checkDailyReset (today : String) (state : BotState) : BotState :=
  if state.lastDailyReset ≠ today then
    { state with dailyPnl := 0, dailyLossCount := 0, lastDailyReset := today }
  else state

/-- Source `createDefaultState()` (the date strings passed explicitly). -/
def createDefaultState (today nowIso : String) : BotState :=
  { version := 1, positions := [], lastCheckTimes := [], cumulativePnl := 0,
    dailyPnl := 0, dailyLossCount := 0, lastDailyReset := today,
    errorCounts := [], emergencyStop := false, lastUpdated := nowIso }

/-- Source `loadState()`: missing or unreadable file yields the default state; an
existing document is passed through `checkDailyReset`. -/
def loadState (today nowIso : String) : Option BotState → BotState
  | none => createDefaultState today nowIso
  | some st => checkDailyReset today st

/-- Source `setEmergencyStop(state, stop)`. -/
def setEmergencyStop (state : BotState) (stop : Bool) : BotState :=
  { state with emergencyStop := stop }

/-! ## Trading decisions (`src/bot/loop/decision-engine.ts`) -/

/-- A structured trading decision (the LLM reply after validation). -/
structure TradingDecision where
  action : String
  confidence : ℚ
  reasoning : String
  size_usd : ℚ
deriving Repr, DecidableEq

/-- Source `TradingDecisionSchema`: `action ∈ {BUY, SELL, HOLD}`,
`confidence ∈ [0,100]`, `size_usd ∈ [0,100]` (the upper bound is the
constant `100`, independent of the configured cap). -/
def schemaValid (d : TradingDecision) : Bool :=
  (d.action == "BUY" || d.action == "SELL" || d.action == "HOLD")
    && decide (0 ≤ d.confidence) && decide (d.confidence ≤ 100)
    && decide (0 ≤ d.size_usd) && decide (d.size_usd ≤ 100)

/-! ## Scheduler (`src/bot/loop/scheduler.ts`) -/

/-- The scheduler configuration fields the evaluation path reads. -/
structure SchedulerConfig where
  maxTradeUsd : ℚ
  dailyLossLimitUsd : ℚ
  confidenceThreshold : ℚ
deriving Repr, DecidableEq

/-- Per-symbol circuit-breaker record. -/
structure CircuitBreaker where
  errors : ℕ
  skipUntil : ℕ
deriving Repr, DecidableEq

/-- Source `this.circuitBreakers.get(pair)`. -/
def lookupBreaker (bks : List (String × CircuitBreaker)) (pair : String) :
    Option CircuitBreaker :=
  (bks.find? (fun e => e.1 == pair)).map (·.2)

/-- Source `this.circuitBreakers.set(pair, b)`. -/
def setBreaker : List (String × CircuitBreaker) → String → CircuitBreaker →
    List (String × CircuitBreaker)
  | [], pair, b => [(pair, b)]
  | e :: es, pair, b =>
      if e.1 == pair then (pair, b) :: es else e :: setBreaker es pair b

/-- Outcomes of the external calls one `evaluatePair` run would make.
`engineResult = none` models the decision engine throwing (market-data or
LLM failure); `execResult = none` models `executeTrade` returning
`executed = false`; `some (orderId, avgPrice)` models a fill. -/
structure PairEnv where
  today : String
  now : ℕ
  volatilitySafe : Bool
  engineResult : Option TradingDecision
  positionCheckAllowed : Bool
  execResult : Option (ℕ × ℚ)
deriving Repr, DecidableEq

/-- Result of one `evaluatePair` run.  `state` is the persisted store after
the run (unchanged unless the run saved).  `tradeAttempted` records that
`this.executeTrade` was invoked — in paper mode that method immediately
fetches a ticker from the exchange client and simulates a fill, in
testnet/live mode it places an order, so `tradeAttempted = true` means the
exchange client was reached with the trade.  `engineEvaluated` records that
the decision engine was consulted. -/
structure PairResult where
  state : BotState
  breakers : List (String × CircuitBreaker)
  engineEvaluated : Bool
  tradeAttempted : Bool
  tradeExecuted : Bool
deriving Repr, DecidableEq

/-- Trade completion (`scheduler.ts` lines 291–316): realized P&L is
computed from the pre-trade position, then the position is updated (BUY
adds `size_usd / price`; SELL passes the negated quantity), then the P&L is
recorded. -/
def completeTrade (state : BotState) (pair action : String) (size_usd price : ℚ) :
    BotState :=
  let quantity := size_usd / price
  let tradePnl :=
    if action == "SELL" then
      match findPosition state.positions pair with
      | some pos => if quantity ≤ pos.quantity then (price - pos.avgPrice) * quantity else 0
      | none => 0
    else 0
  let state1 :=
    if action == "BUY" then updatePosition state pair quantity price
    else updatePosition state pair (-quantity) price
  recordTradePnl state1 tradePnl

/-- The failure branch of `evaluatePair`'s `catch`: increment the symbol's
error count; at three or more errors set `skipUntil` 30 minutes ahead. -/
def failBreaker (bks : List (String × CircuitBreaker)) (pair : String) (now : ℕ) :
    List (String × CircuitBreaker) :=
  let current := (lookupBreaker bks pair).getD ⟨0, 0⟩
  let errors := current.errors + 1
  let b : CircuitBreaker :=
    if 3 ≤ errors then { errors := errors, skipUntil := now + 30 * 60 * 1000 }
    else { errors := errors, skipUntil := current.skipUntil }
  setBreaker bks pair b

/-- Source `Scheduler.evaluatePair(pair)`: load state (which applies the daily
reset in memory), run the safety gates in order (emergency stop, daily
loss, circuit breaker, volatility), consult the decision engine, run the
position-concentration check for actionable decisions, execute, and on an
executed fill mutate and save the state; a completed cycle resets the
symbol's breaker, a thrown error increments it.  Only `saveState` paths
change the persisted `state`. -/
def evaluatePair (cfg : SchedulerConfig) (env : PairEnv)
    (bks : List (String × CircuitBreaker)) (store : BotState) (pair : String) :
    PairResult :=
  let state := checkDailyReset env.today store
  if state.emergencyStop then ⟨store, bks, false, false, false⟩
  else if state.dailyPnl < -cfg.dailyLossLimitUsd then ⟨store, bks, false, false, false⟩
  else if (match lookupBreaker bks pair with
           | some b => decide (env.now < b.skipUntil)
           | none => false) then ⟨store, bks, false, false, false⟩
  else if !env.volatilitySafe then ⟨store, bks, false, false, false⟩
  else
    match env.engineResult with
    | none => ⟨store, failBreaker bks pair env.now, true, false, false⟩
    | some decision =>
      if decision.action != "HOLD" && decide (0 < decision.size_usd) then
        if !env.positionCheckAllowed then ⟨store, bks, true, false, false⟩
        else
          match env.execResult with
          | some (orderId, price) =>
            if orderId ≠ 0 then
              ⟨completeTrade state pair decision.action decision.size_usd price,
               setBreaker bks pair ⟨0, 0⟩, true, true, true⟩
            else ⟨store, setBreaker bks pair ⟨0, 0⟩, true, true, true⟩
          | none => ⟨store, setBreaker bks pair ⟨0, 0⟩, true, true, false⟩
      else ⟨store, setBreaker bks pair ⟨0, 0⟩, true, false, false⟩

/-- Source `Scheduler.runLoop()`: load state, then evaluate each held symbol in
sequence (each `evaluatePair` loads the then-current store).  Returns the
persisted store, the breaker map, and the numbers of engine evaluations and
executed trades. -/
def runLoop (cfg : SchedulerConfig) (envs : String → PairEnv)
    (bks : List (String × CircuitBreaker)) (store : BotState) (today : String) :
    BotState × List (String × CircuitBreaker) × ℕ × ℕ :=
  let heldPairs := (checkDailyReset today store).positions.map (·.symbol)
  heldPairs.foldl
    (fun acc pair =>
      let r := evaluatePair cfg (envs pair) acc.2.1 acc.1 pair
      (r.state, r.breakers,
       acc.2.2.1 + (if r.engineEvaluated then 1 else 0),
       acc.2.2.2 + (if r.tradeExecuted then 1 else 0)))
    (store, bks, 0, 0)

/-! ## Portfolio manager (`src/bot/loop/portfolio-manager.ts` and the
portfolio execution paths of `scheduler.ts`) -/

/-- A validated portfolio recommendation. -/
structure PortfolioRecommendation where
  symbol : String
  action : String
  amountUsd : ℚ
  reasoning : String
deriving Repr, DecidableEq

/-- One raw entry of the JSON array embedded in the LLM reply; optional
fields model missing JSON keys, and `amount = some 0` is falsy in the
source's `rec.amount || maxTradeUsd`. -/
structure RawRec where
  symbol : Option String
  action : String
  amount : Option ℚ
  reasoning : Option String
deriving Repr, DecidableEq

/-- JavaScript's `toUpperCase()` (ASCII case mapping, which covers ticker
symbols). -/
def toUpperAscii (s : String) : String := ⟨s.data.map Char.toUpper⟩

/-- One iteration of `PortfolioManager.parseRecommendations`'s loop: drop
`HOLD` entries, drop empty/`USDT` symbols, drop `BUY` entries once the
held-symbol set has reached `maxPositions`, and clamp `amountUsd` to
`maxTradeUsd`. -/
def parseRecStep (maxPositions : ℕ) (maxTradeUsd : ℚ) (currentSymbolsSize : ℕ)
    (acc : List PortfolioRecommendation) (rec : RawRec) :
    List PortfolioRecommendation :=
  if rec.action == "HOLD" then acc
  else
    let symbol := toUpperAscii (rec.symbol.getD "")
    if symbol == "" || symbol == "USDT" then acc
    else if rec.action == "BUY" && decide (maxPositions ≤ currentSymbolsSize) then acc
    else
      acc ++ [{ symbol := symbol, action := rec.action,
                amountUsd :=
                  min (match rec.amount with
                       | some a => if a = 0 then maxTradeUsd else a
                       | none => maxTradeUsd) maxTradeUsd,
                reasoning := rec.reasoning.getD "No reasoning provided" }]

def parseRecommendations (maxPositions : ℕ) (maxTradeUsd : ℚ)
    (recs : List RawRec) (currentPositions : List Position) :
    List PortfolioRecommendation :=
  let currentSymbolsSize := ((currentPositions.map (·.symbol)).dedup).length
  recs.foldl (parseRecStep maxPositions maxTradeUsd currentSymbolsSize) []

/-- Outcomes of the external calls one portfolio buy/sell execution would
make: `price = none` models the ticker fetch throwing, `execResult = none`
models `executeTrade` returning `executed = false`. -/
structure PortfolioTradeEnv where
  today : String
  price : Option ℚ
  execResult : Option (ℕ × ℚ)
deriving Repr, DecidableEq

/-- How one recommendation ended. -/
inductive RecOutcome where
  | rejected (reason : String)
  | executed
  | notExecuted
deriving Repr, DecidableEq

/-- Result of one portfolio buy/sell execution; `exchangeCalled` records
whether any request reached the exchange client. -/
structure PortfolioStepResult where
  state : BotState
  exchangeCalled : Bool
  outcome : RecOutcome
deriving Repr, DecidableEq

/-- Source `Scheduler.executePortfolioBuy`: at five or more held positions the
recommendation is logged as rejected (`logRejectedRecommendation`) and no
request is made; otherwise fetch a ticker, execute, and on a fill with a
non-zero average price update the position and save. -/
def executePortfolioBuy (env : PortfolioTradeEnv) (store : BotState)
    (rec : PortfolioRecommendation) : PortfolioStepResult :=
  let state := checkDailyReset env.today store
  if 5 ≤ state.positions.length then
    ⟨store, false, RecOutcome.rejected "Max positions (5) reached"⟩
  else
    match env.price with
    | none => ⟨store, true, RecOutcome.notExecuted⟩
    | some price =>
      match env.execResult with
      | some (_, avgPrice) =>
          if avgPrice ≠ 0 then
            ⟨updatePosition state rec.symbol (rec.amountUsd / price) avgPrice,
             true, RecOutcome.executed⟩
          else ⟨store, true, RecOutcome.notExecuted⟩
      | none => ⟨store, true, RecOutcome.notExecuted⟩

/-- Source `Scheduler.executePortfolioSell`: with no held position the
recommendation is logged as rejected; otherwise fetch a ticker, sell the
whole position, and on a fill remove it and record
`value - avgPrice · quantity` as realized P&L. -/
def executePortfolioSell (env : PortfolioTradeEnv) (store : BotState)
    (symbol : String) : PortfolioStepResult :=
  let state := checkDailyReset env.today store
  match findPosition state.positions symbol with
  | none => ⟨store, false, RecOutcome.rejected "No position held"⟩
  | some pos =>
    match env.price with
    | none => ⟨store, true, RecOutcome.notExecuted⟩
    | some price =>
      let value := pos.quantity * price
      match env.execResult with
      | some _ =>
          let st1 := { state with
                        positions := state.positions.filter (fun p => p.symbol != symbol) }
          ⟨recordTradePnl st1 (value - pos.avgPrice * pos.quantity),
           true, RecOutcome.executed⟩
      | none => ⟨store, true, RecOutcome.notExecuted⟩

/-- Outcomes of the external calls one `runPortfolioManager` run would
make: `consult = none` models `consult()` throwing, otherwise the validated
recommendation list it returned; `tradeEnv` gives the per-symbol execution
environment. -/
structure PortfolioEnv where
  today : String
  consult : Option (List PortfolioRecommendation)
  tradeEnv : String → PortfolioTradeEnv

/-- Source `Scheduler.runPortfolioManager()`: load state, return at once under
emergency stop, otherwise consult and execute each SELL/BUY recommendation
in order.  Returns the persisted store, whether the oracle was consulted,
and the number of executed trades. -/
def runPortfolioManager (env : PortfolioEnv) (store : BotState) :
    BotState × Bool × ℕ :=
  let state := checkDailyReset env.today store
  if state.emergencyStop then (store, false, 0)
  else
    match env.consult with
    | none => (store, true, 0)
    | some recs =>
      recs.foldl
        (fun acc rec =>
          if rec.action == "SELL" then
            let r := executePortfolioSell (env.tradeEnv rec.symbol) acc.1 rec.symbol
            (r.state, true, acc.2.2 + if r.outcome = RecOutcome.executed then 1 else 0)
          else if rec.action == "BUY" then
            let r := executePortfolioBuy (env.tradeEnv rec.symbol) acc.1 rec
            (r.state, true, acc.2.2 + if r.outcome = RecOutcome.executed then 1 else 0)
          else acc)
        (store, true, 0)

/-! ## Scheduled cycles -/

/-- One scheduled cycle: a fast per-symbol evaluation sweep or an hourly
portfolio-rebalance run. -/
inductive Cycle where
  | fast (today : String) (envs : String → PairEnv)
  | slow (env : PortfolioEnv)

/-- Run one cycle against the persisted store; returns the store, the
breaker map, and the numbers of oracle consultations/evaluations and
executed trades. -/
def runCycle (cfg : SchedulerConfig) (bks : List (String × CircuitBreaker))
    (store : BotState) : Cycle → BotState × List (String × CircuitBreaker) × ℕ × ℕ
  | Cycle.fast today envs => runLoop cfg envs bks store today
  | Cycle.slow env =>
      let r := runPortfolioManager env store
      (r.1, bks, if r.2.1 then 1 else 0, r.2.2)

/-- Run a list of scheduled cycles in order, accumulating the evaluation
and execution counts. -/
def runCycles (cfg : SchedulerConfig) (bks : List (String × CircuitBreaker))
    (store : BotState) : List Cycle → BotState × List (String × CircuitBreaker) × ℕ × ℕ
  | [] => (store, bks, 0, 0)
  | c :: cs =>
      let r := runCycle cfg bks store c
      let rest := runCycles cfg r.2.1 r.1 cs
      (rest.1, rest.2.1, r.2.2.1 + rest.2.2.1, r.2.2.2 + rest.2.2.2)

/-! ## Helper lemmas -/

theorem find?_filter_ne (l : List Position) (sym : String) :
    (l.filter (fun p => p.symbol != sym)).find? (fun p => p.symbol == sym) = none := by
  rw [List.find?_eq_none]
  intro x hx
  have hmem := (List.mem_filter.mp hx).2
  simp only [bne_iff_ne, ne_eq] at hmem
  simp only [beq_iff_eq]
  exact hmem

theorem filter_ne_eq_self (l : List Position) (sym : String)
    (h : l.find? (fun p => p.symbol == sym) = none) :
    l.filter (fun p => p.symbol != sym) = l := by
  induction l with
  | nil => rfl
  | cons p ps ih =>
    rw [List.find?_cons] at h
    by_cases hp : p.symbol == sym
    · simp [hp] at h
    · have hps : ps.find? (fun p => p.symbol == sym) = none := by
        simpa [hp] using h
      have hp' : (p.symbol != sym) = true := by simpa using hp
      rw [List.filter_cons, if_pos hp', ih hps]

theorem find?_append_of_none {α : Type} (l l' : List α) (p : α → Bool)
    (h : l.find? p = none) : (l ++ l').find? p = l'.find? p := by
  induction l with
  | nil => rfl
  | cons a as ih =>
    rw [List.find?_cons] at h
    by_cases ha : p a
    · simp [ha] at h
    · simp only [ha] at h
      simp [List.find?_cons, ha, ih h]

theorem updateFirstMatching_append_of_none (l : List Position) (x : Position)
    (sym : String) (f : Position → Position)
    (h : l.find? (fun p => p.symbol == sym) = none) :
    updateFirstMatching (l ++ [x]) sym f = l ++ updateFirstMatching [x] sym f := by
  induction l with
  | nil => rfl
  | cons p ps ih =>
    rw [List.find?_cons] at h
    by_cases hp : p.symbol == sym
    · simp [hp] at h
    · simp only [hp] at h
      simp [updateFirstMatching, hp, ih h]

/-! ## C5 — daily reset -/

/-- C5: `dailyPnl` and `dailyLossCount` are reset to zero exactly once per
calendar day: the first load after the date rolls over (detected by
comparing `lastDailyReset` to the current date) zeroes them and stamps the
date; a load on the same day leaves the state untouched; and re-applying
the load-time reset is a no-op, so the values remain stable across multiple
loads within the same day. -/
theorem daily_reset_exactly_once (today nowIso : String) (st : BotState) :
    (st.lastDailyReset ≠ today →
      loadState today nowIso (some st) =
        { st with dailyPnl := 0, dailyLossCount := 0, lastDailyReset := today }) ∧
    (st.lastDailyReset = today → loadState today nowIso (some st) = st) ∧
    loadState today nowIso (some (loadState today nowIso (some st))) =
      loadState today nowIso (some st) := by
  refine ⟨fun h => ?_, fun h => ?_, ?_⟩
  · simp [loadState, checkDailyReset, h]
  · simp [loadState, checkDailyReset, h]
  · by_cases h : st.lastDailyReset = today <;>
      simp [loadState, checkDailyReset, h]

/-- Witness for C5 at a concrete rolled-over state. -/
theorem daily_reset_exactly_once_witness :
    ("2026-02-01" : String) ≠ "2026-02-02" ∧
    loadState "2026-02-02" "t"
        (some { version := 1, positions := [], lastCheckTimes := [],
                cumulativePnl := 7, dailyPnl := 3, dailyLossCount := 2,
                lastDailyReset := "2026-02-01", errorCounts := [],
                emergencyStop := false, lastUpdated := "t0" }) =
      { version := 1, positions := [], lastCheckTimes := [],
        cumulativePnl := 7, dailyPnl := 0, dailyLossCount := 0,
        lastDailyReset := "2026-02-02", errorCounts := [],
        emergencyStop := false, lastUpdated := "t0" } :=
  ⟨by decide,
   (daily_reset_exactly_once "2026-02-02" "t"
      { version := 1, positions := [], lastCheckTimes := [],
        cumulativePnl := 7, dailyPnl := 3, dailyLossCount := 2,
        lastDailyReset := "2026-02-01", errorCounts := [],
        emergencyStop := false, lastUpdated := "t0" }).1 (by decide)⟩

/-! ## C7 — non-positive quantity removes the position -/

/-- C7: calling `updatePosition` with a non-positive quantity removes the
symbol's position entirely, whatever the magnitude of the quantity — the
resulting position list is the original one with every entry for that
symbol filtered out, so no partial reduction to a smaller positive quantity
is possible through this call shape — and when no position exists for the
symbol the state is returned unchanged. -/
theorem updatePosition_nonpos_removes (st : BotState) (sym : String)
    (q price : ℚ) (hq : q ≤ 0) :
    (updatePosition st sym q price).positions =
        st.positions.filter (fun p => p.symbol != sym) ∧
    findPosition (updatePosition st sym q price).positions sym = none ∧
    (findPosition st.positions sym = none → updatePosition st sym q price = st) := by
  cases h : findPosition st.positions sym with
  | some pos =>
    have hpos : (updatePosition st sym q price).positions =
        st.positions.filter (fun p => p.symbol != sym) := by
      simp [updatePosition, hq, h]
    refine ⟨hpos, ?_, ?_⟩
    · rw [hpos]
      simp [findPosition, find?_filter_ne]
    · intro hnone
      exact absurd hnone (Option.some_ne_none pos)
  | none =>
    have h' : st.positions.find? (fun p => p.symbol == sym) = none := h
    have hunchanged : updatePosition st sym q price = st := by
      simp [updatePosition, hq, h]
    refine ⟨?_, ?_, fun _ => hunchanged⟩
    · rw [hunchanged]
      exact (filter_ne_eq_self st.positions sym h').symm
    · rw [hunchanged]
      exact h

/-- Witness for C7: a sell of magnitude larger than the held quantity still
just removes the position. -/
theorem updatePosition_nonpos_removes_witness :
    ((-5 : ℚ) ≤ 0) ∧
    (updatePosition
        { version := 1, positions := [⟨"BTCUSDT", 2, 100⟩], lastCheckTimes := [],
          cumulativePnl := 0, dailyPnl := 0, dailyLossCount := 0,
          lastDailyReset := "d", errorCounts := [], emergencyStop := false,
          lastUpdated := "t" } "BTCUSDT" (-5) 100).positions =
      ([⟨"BTCUSDT", 2, 100⟩] : List Position).filter (fun p => p.symbol != "BTCUSDT") :=
  ⟨by norm_num,
   (updatePosition_nonpos_removes
      { version := 1, positions := [⟨"BTCUSDT", 2, 100⟩], lastCheckTimes := [],
        cumulativePnl := 0, dailyPnl := 0, dailyLossCount := 0,
        lastDailyReset := "d", errorCounts := [], emergencyStop := false,
        lastUpdated := "t" } "BTCUSDT" (-5) 100 (by norm_num)).1⟩

/-! ## C10 — two additive BUY fills commute -/

theorem updatePosition_fresh (st : BotState) (sym : String) (q p : ℚ)
    (hfind : findPosition st.positions sym = none) (hq : 0 < q) :
    updatePosition st sym q p =
      { st with positions := st.positions ++ [⟨sym, q, p⟩] } := by
  simp [updatePosition, not_le.mpr hq, hfind]

theorem updatePosition_append_merge (st : BotState) (sym : String) (x : Position)
    (q p : ℚ) (hfind : findPosition st.positions sym = none) (hx : x.symbol = sym)
    (hq : 0 < q) :
    updatePosition { st with positions := st.positions ++ [x] } sym q p =
      { st with positions := st.positions ++
          [⟨sym, x.quantity + q, (x.quantity * x.avgPrice + q * p) / (x.quantity + q)⟩] } := by
  have hxbeq : (x.symbol == sym) = true := by simp [hx]
  have hfind' : findPosition (st.positions ++ [x]) sym = some x := by
    unfold findPosition at hfind ⊢
    rw [find?_append_of_none _ _ _ hfind]
    simp [List.find?_cons, hxbeq]
  have hfm : updateFirstMatching (st.positions ++ [x]) sym
        (fun pp => { pp with
          avgPrice := (x.quantity * x.avgPrice + q * p) / (x.quantity + q),
          quantity := x.quantity + q }) =
      st.positions ++
        [⟨sym, x.quantity + q, (x.quantity * x.avgPrice + q * p) / (x.quantity + q)⟩] := by
    rw [updateFirstMatching_append_of_none _ _ _ _ hfind]
    simp [updateFirstMatching, hxbeq, hx]
  have hbody : updatePosition { st with positions := st.positions ++ [x] } sym q p =
      { st with positions := updateFirstMatching (st.positions ++ [x]) sym (fun pp => { pp with avgPrice := (x.quantity * x.avgPrice + q * p) / (x.quantity + q), quantity := x.quantity + q }) } := by
    simp [updatePosition, hfind', not_le.mpr hq]
  rw [hbody, hfm]

/-- C10: starting from a state holding no position for the symbol, two
additive BUY fills `(q1, p1)` and `(q2, p2)` (both quantities positive)
applied through `updatePosition` in either order give the same state — the
weighted-average price accumulates commutatively. -/
theorem buy_fills_commute (st : BotState) (sym : String) (q1 p1 q2 p2 : ℚ)
    (hfind : findPosition st.positions sym = none) (h1 : 0 < q1) (h2 : 0 < q2) :
    updatePosition (updatePosition st sym q1 p1) sym q2 p2 =
      updatePosition (updatePosition st sym q2 p2) sym q1 p1 := by
  rw [updatePosition_fresh st sym q1 p1 hfind h1,
      updatePosition_fresh st sym q2 p2 hfind h2]
  rw [updatePosition_append_merge st sym ⟨sym, q1, p1⟩ q2 p2 hfind rfl h2,
      updatePosition_append_merge st sym ⟨sym, q2, p2⟩ q1 p1 hfind rfl h1]
  rw [show q1 + q2 = q2 + q1 from by ring,
      show q1 * p1 + q2 * p2 = q2 * p2 + q1 * p1 from by ring]

/-- Witness for C10: fills (1 unit at 2000) and (3 units at 3000) from an
empty book commute. -/
theorem buy_fills_commute_witness :
    findPosition ([] : List Position) "ETHUSDT" = none ∧
    updatePosition (updatePosition
        { version := 1, positions := [], lastCheckTimes := [], cumulativePnl := 0,
          dailyPnl := 0, dailyLossCount := 0, lastDailyReset := "d",
          errorCounts := [], emergencyStop := false, lastUpdated := "t" }
        "ETHUSDT" 1 2000) "ETHUSDT" 3 3000 =
      updatePosition (updatePosition
        { version := 1, positions := [], lastCheckTimes := [], cumulativePnl := 0,
          dailyPnl := 0, dailyLossCount := 0, lastDailyReset := "d",
          errorCounts := [], emergencyStop := false, lastUpdated := "t" }
        "ETHUSDT" 3 3000) "ETHUSDT" 1 2000 :=
  ⟨by decide,
   buy_fills_commute
     { version := 1, positions := [], lastCheckTimes := [], cumulativePnl := 0,
       dailyPnl := 0, dailyLossCount := 0, lastDailyReset := "d",
       errorCounts := [], emergencyStop := false, lastUpdated := "t" }
     "ETHUSDT" 1 2000 3 3000 (by decide) (by norm_num) (by norm_num)⟩

/-! ## C8, C9 — indicator contracts -/

theorem gainOf_nonneg (c : ℚ) : 0 ≤ gainOf c := by
  unfold gainOf
  split
  · linarith
  · linarith

theorem lossOf_nonneg (c : ℚ) : 0 ≤ lossOf c := by
  unfold lossOf
  split
  · linarith
  · linarith

theorem rsiSmoothStep_nonneg (period : ℕ) (hp : 0 < period) (gl : ℚ × ℚ) (c : ℚ)
    (hg : 0 ≤ gl.1) (hl : 0 ≤ gl.2) :
    0 ≤ (rsiSmoothStep period gl c).1 ∧ 0 ≤ (rsiSmoothStep period gl c).2 := by
  have hpQ : (0 : ℚ) ≤ (period : ℚ) := by positivity
  have h1 : (1 : ℚ) ≤ (period : ℚ) := by exact_mod_cast hp
  have hw : (0 : ℚ) ≤ (period : ℚ) - 1 := by linarith
  constructor
  · exact div_nonneg (by nlinarith [gainOf_nonneg c]) hpQ
  · exact div_nonneg (by nlinarith [lossOf_nonneg c]) hpQ

theorem rsiFold_nonneg (period : ℕ) (hp : 0 < period) (l : List ℚ) :
    ∀ gl : ℚ × ℚ, 0 ≤ gl.1 → 0 ≤ gl.2 →
      0 ≤ (l.foldl (rsiSmoothStep period) gl).1 ∧
        0 ≤ (l.foldl (rsiSmoothStep period) gl).2 := by
  induction l with
  | nil => exact fun gl hg hl => ⟨hg, hl⟩
  | cons c cs ih =>
    intro gl hg hl
    have hstep := rsiSmoothStep_nonneg period hp gl c hg hl
    exact ih (rsiSmoothStep period gl c) hstep.1 hstep.2

theorem rsiAverages_nonneg (prices : List ℚ) (period : ℕ) (hp : 0 < period) :
    0 ≤ (rsiAverages prices period).1 ∧ 0 ≤ (rsiAverages prices period).2 := by
  unfold rsiAverages
  have hpQ : (0 : ℚ) ≤ (period : ℚ) := by positivity
  have hseedG : 0 ≤ (((changesOf prices).take period).map gainOf).sum / (period : ℚ) :=
    div_nonneg (List.sum_nonneg (by
      intro x hx
      obtain ⟨c, _, rfl⟩ := List.mem_map.mp hx
      exact gainOf_nonneg c)) hpQ
  have hseedL : 0 ≤ (((changesOf prices).take period).map lossOf).sum / (period : ℚ) :=
    div_nonneg (List.sum_nonneg (by
      intro x hx
      obtain ⟨c, _, rfl⟩ := List.mem_map.mp hx
      exact lossOf_nonneg c)) hpQ
  exact rsiFold_nonneg period hp _ _ hseedG hseedL

/-- C8: for a positive period and a series of length at least `period + 1`,
`rsi` returns a value, that value lies in `[0, 100]`, and whenever the
smoothed average loss is exactly zero the value is exactly `100` (the
divide-by-zero case never produces a NaN). -/
theorem rsi_in_range (prices : List ℚ) (period : ℕ) (hp : 0 < period)
    (hlen : period + 1 ≤ prices.length) :
    ∃ r, rsi prices period = some r ∧ 0 ≤ r ∧ r ≤ 100 ∧
      ((rsiAverages prices period).2 = 0 → r = 100) := by
  have hnot : ¬ prices.length < period + 1 := not_lt.mpr hlen
  by_cases hz : (rsiAverages prices period).2 = 0
  · refine ⟨100, ?_, by norm_num, by norm_num, fun _ => rfl⟩
    simp [rsi, hnot, hz]
  · obtain ⟨hg, hl⟩ := rsiAverages_nonneg prices period hp
    have hlpos : 0 < (rsiAverages prices period).2 := lt_of_le_of_ne hl (Ne.symm hz)
    set g := (rsiAverages prices period).1 with hgdef
    set l := (rsiAverages prices period).2 with hldef
    have hrs : 0 ≤ g / l := div_nonneg hg hl
    have hden : (1 : ℚ) ≤ 1 + g / l := by linarith
    refine ⟨100 - 100 / (1 + g / l), ?_, ?_, ?_, fun h => absurd h hz⟩
    · simp [rsi, hnot, hz]
    · have := div_le_self (by norm_num : (0 : ℚ) ≤ 100) hden
      linarith
    · have : 0 ≤ 100 / (1 + g / l) := div_nonneg (by norm_num) (by linarith)
      linarith

/-- Witness for C8 at the concrete series `[1, 2, 3]` with period 2 (a
gain-only series, so the smoothed loss is zero and RSI is exactly 100). -/
theorem rsi_in_range_witness :
    0 < 2 ∧ 2 + 1 ≤ ([1, 2, 3] : List ℚ).length ∧
      ∃ r, rsi [1, 2, 3] 2 = some r ∧ 0 ≤ r ∧ r ≤ 100 ∧
        ((rsiAverages [1, 2, 3] 2).2 = 0 → r = 100) :=
  ⟨by norm_num, by decide, rsi_in_range [1, 2, 3] 2 (by norm_num) (by decide)⟩

theorem subOpt_none_right (a : Option ℚ) : subOpt a none = none := by
  cases a <;> rfl

theorem subOpt_none_left (a : Option ℚ) : subOpt none a = none := by
  cases a <;> rfl

/-- C9: each indicator returns the insufficient-data sentinel (`none`,
modelling NaN) whenever the series is shorter than its data requirement:
`sma`/`ema` need `period` points, `rsi` needs `period + 1`, and `macd`
(with a positive signal period) yields NaN in all three components when the
series is shorter than the slow period. -/
theorem indicators_insufficient_data :
    (∀ (prices : List ℚ) (period : ℕ), prices.length < period →
        sma prices period = none) ∧
    (∀ (prices : List ℚ) (period : ℕ), prices.length < period →
        ema prices period = none) ∧
    (∀ (prices : List ℚ) (period : ℕ), prices.length < period + 1 →
        rsi prices period = none) ∧
    (∀ (prices : List ℚ) (fastPeriod slowPeriod signalPeriod : ℕ),
        0 < signalPeriod → prices.length < slowPeriod →
        macd prices fastPeriod slowPeriod signalPeriod =
          ⟨none, none, none⟩) := by
  refine ⟨?_, ?_, ?_, ?_⟩
  · intro prices period h
    simp [sma, h]
  · intro prices period h
    simp [ema, h]
  · intro prices period h
    simp [rsi, h]
  · intro prices fastPeriod slowPeriod signalPeriod hs h
    have hslow : ema prices slowPeriod = none := by simp [ema, h]
    have hseries : emaSeries prices slowPeriod = [] := by simp [emaSeries, h]
    have hns : ¬ (signalPeriod ≤ 0) := by omega
    simp [macd, hslow, hseries, hns, subOpt_none_right, subOpt_none_left,
      List.zip_nil_right]

/-- Witness for C9 at concrete short series. -/
theorem indicators_insufficient_data_witness :
    sma [1, 2] 5 = none ∧ ema [1, 2] 5 = none ∧ rsi [1, 2] 2 = none ∧
      macd [1, 2] 12 26 9 = ⟨none, none, none⟩ :=
  ⟨indicators_insufficient_data.1 [1, 2] 5 (by decide),
   indicators_insufficient_data.2.1 [1, 2] 5 (by decide),
   indicators_insufficient_data.2.2.1 [1, 2] 2 (by decide),
   indicators_insufficient_data.2.2.2 [1, 2] 12 26 9 (by norm_num) (by decide)⟩

/-! ## C1 — executed SELL completion in the fast cycle -/

/-- State of the C1 scenarios before a two-unit ETH position is sold. -/
def sellStateTwoUnits : BotState :=
  { version := 1, positions := [⟨"ETHUSDT", 2, 2000⟩], lastCheckTimes := [],
    cumulativePnl := 0, dailyPnl := 0, dailyLossCount := 0,
    lastDailyReset := "2026-01-01", errorCounts := [], emergencyStop := false,
    lastUpdated := "t" }

/-- Fast-cycle environment completing an executed SELL of one unit
(`size_usd = 2200` at fill price `2200`). -/
def sellEnvOneUnit : PairEnv :=
  { today := "2026-01-01", now := 0, volatilitySafe := true,
    engineResult := some ⟨"SELL", 100, "take profit", 2200⟩,
    positionCheckAllowed := true, execResult := some (42, 2200) }

/-- C1 counterexample: with a position of two units at average price 2000
and an executed SELL fill at price 2200 for one unit, the claim predicts
the position's quantity decreases to one; the code instead removes the
position entirely (the SELL path calls `updatePosition` with a negative
quantity, which deletes the entry whatever the remaining amount). -/
theorem sell_partial_removal_counterexample :
    (evaluatePair ⟨20, 10, 70⟩ sellEnvOneUnit [] sellStateTwoUnits
        "ETHUSDT").state.positions = [] ∧
    ¬ ((evaluatePair ⟨20, 10, 70⟩ sellEnvOneUnit [] sellStateTwoUnits
        "ETHUSDT").state.positions = [⟨"ETHUSDT", 1, 2000⟩]) := by
  have h1 : ("SELL" : String) ≠ "HOLD" := by decide
  have h2 : ("SELL" : String) ≠ "BUY" := by decide
  have hpos : (evaluatePair ⟨20, 10, 70⟩ sellEnvOneUnit [] sellStateTwoUnits
      "ETHUSDT").state.positions = [] := by
    norm_num [evaluatePair, sellEnvOneUnit, sellStateTwoUnits, checkDailyReset,
      lookupBreaker, completeTrade, findPosition, updatePosition, recordTradePnl,
      h1, h2]
  refine ⟨hpos, ?_⟩
  rw [hpos]
  simp

/-- C1 (amended): when an executed SELL completes in the fast cycle against
a held position, the realized P&L is `(fillPrice - positionAvgPrice) ×
soldQuantity` when the sold quantity is at most the held quantity (and `0`
otherwise), computed from the position before it is changed; both
`cumulativePnl` and `dailyPnl` increase by exactly that realized P&L; and
the position is removed entirely on every executed SELL — not merely when
the remaining quantity reaches or crosses zero. -/
theorem sell_completion_amended (st : BotState) (pair : String) (pos : Position)
    (price size_usd : ℚ)
    (hfind : findPosition st.positions pair = some pos)
    (hq : 0 < size_usd / price) :
    (completeTrade st pair "SELL" size_usd price).cumulativePnl =
        st.cumulativePnl + (if size_usd / price ≤ pos.quantity
          then (price - pos.avgPrice) * (size_usd / price) else 0) ∧
    (completeTrade st pair "SELL" size_usd price).dailyPnl =
        st.dailyPnl + (if size_usd / price ≤ pos.quantity
          then (price - pos.avgPrice) * (size_usd / price) else 0) ∧
    findPosition (completeTrade st pair "SELL" size_usd price).positions pair = none := by
  have hneg : -(size_usd / price) ≤ 0 := by linarith
  have hsb : (("SELL" : String) == "BUY") = false := by decide
  have hss : (("SELL" : String) == "SELL") = true := by decide
  have hct : completeTrade st pair "SELL" size_usd price =
      recordTradePnl (updatePosition st pair (-(size_usd / price)) price)
        (if size_usd / price ≤ pos.quantity
          then (price - pos.avgPrice) * (size_usd / price) else 0) := by
    simp [completeTrade, hfind, hsb, hss]
  have hupd : updatePosition st pair (-(size_usd / price)) price =
      { st with positions := st.positions.filter (fun p => p.symbol != pair) } := by
    simp [updatePosition, hneg, hfind]
  rw [hct, hupd]
  refine ⟨rfl, rfl, ?_⟩
  simp [recordTradePnl, findPosition, find?_filter_ne]

/-- State of spec scenario B: one ETH unit at average price 2000. -/
def scenarioBState : BotState :=
  { version := 1, positions := [⟨"ETHUSDT", 1, 2000⟩], lastCheckTimes := [],
    cumulativePnl := 0, dailyPnl := 0, dailyLossCount := 0,
    lastDailyReset := "2026-01-01", errorCounts := [], emergencyStop := false,
    lastUpdated := "t" }

/-- Witness for the amended C1 at scenario B (SELL fill at 2200 for the
whole one-unit position): realized P&L 200, both P&L counters rise by 200,
position removed. -/
theorem sell_completion_amended_witness :
    findPosition scenarioBState.positions "ETHUSDT" = some ⟨"ETHUSDT", 1, 2000⟩ ∧
    (0 : ℚ) < 2200 / 2200 ∧
    ((completeTrade scenarioBState "ETHUSDT" "SELL" 2200 2200).cumulativePnl =
        scenarioBState.cumulativePnl + (if (2200 : ℚ) / 2200 ≤
          (Position.mk "ETHUSDT" 1 2000).quantity
          then ((2200 : ℚ) - (Position.mk "ETHUSDT" 1 2000).avgPrice) * (2200 / 2200) else 0) ∧
      (completeTrade scenarioBState "ETHUSDT" "SELL" 2200 2200).dailyPnl =
        scenarioBState.dailyPnl + (if (2200 : ℚ) / 2200 ≤
          (Position.mk "ETHUSDT" 1 2000).quantity
          then ((2200 : ℚ) - (Position.mk "ETHUSDT" 1 2000).avgPrice) * (2200 / 2200) else 0) ∧
      findPosition (completeTrade scenarioBState "ETHUSDT" "SELL" 2200 2200).positions
          "ETHUSDT" = none) ∧
    (completeTrade scenarioBState "ETHUSDT" "SELL" 2200 2200).cumulativePnl = 200 ∧
    (completeTrade scenarioBState "ETHUSDT" "SELL" 2200 2200).dailyPnl = 200 :=
  ⟨by decide, by norm_num,
   sell_completion_amended scenarioBState "ETHUSDT" ⟨"ETHUSDT", 1, 2000⟩ 2200 2200
     (by decide) (by norm_num),
   by
     have h2 : ("SELL" : String) ≠ "BUY" := by decide
     norm_num [completeTrade, scenarioBState, findPosition, updatePosition,
       recordTradePnl, h2],
   by
     have h2 : ("SELL" : String) ≠ "BUY" := by decide
     norm_num [completeTrade, scenarioBState, findPosition, updatePosition,
       recordTradePnl, h2]⟩

/-! ## C2 — max-trade-USD cap enforcement -/

/-- Where `executeBinanceTrade`'s execution ended. -/
inductive ToolOutcome where
  | rejectedCap
  | paperSimulated
  | orderPlaced
deriving Repr, DecidableEq

/-- The `executeBinanceTrade` tool (`trade.ts` lines 45–57): safety gate 1
rejects any quote amount above the configured cap before any request is
made; paper mode then simulates (one ticker request); otherwise a real
order is placed.  The Bool records whether the exchange client was
contacted. -/
def executeBinanceTrade (maxTradeUsd : ℚ) (tradingMode : String)
    (quoteAmountUsd : ℚ) : ToolOutcome × Bool :=
  if maxTradeUsd < quoteAmountUsd then (ToolOutcome.rejectedCap, false)
  else if tradingMode == "paper" then (ToolOutcome.paperSimulated, true)
  else (ToolOutcome.orderPlaced, true)

/-- The decision of the C2 failing input: a schema-valid BUY for 50 USD
(the schema bounds `size_usd` by the constant 100, not by the configured
cap). -/
def overCapDecision : TradingDecision := ⟨"BUY", 100, "momentum", 50⟩

/-- Fast-cycle environment around the C2 failing input. -/
def overCapEnv : PairEnv :=
  { today := "2026-01-01", now := 0, volatilitySafe := true,
    engineResult := some overCapDecision,
    positionCheckAllowed := true, execResult := some (123456, 100) }

/-- Initial state of the C2 failing input. -/
def overCapState : BotState := createDefaultState "2026-01-01" "t0"

/-- C2 (code bug): with the cap configured at 20 USD, the schema-valid BUY
decision for 50 USD sails through the fast cycle — the scheduler's own
`executeTrade` is invoked (contacting the exchange client) and the trade
executes, with no cap check on this path — even though the repository's
`executeBinanceTrade` safety gate, which the scheduler bypasses, would
have rejected the same amount before any exchange request. -/
theorem cap_not_enforced_on_fast_cycle :
    schemaValid overCapDecision = true ∧
    (20 : ℚ) < overCapDecision.size_usd ∧
    (evaluatePair ⟨20, 10, 70⟩ overCapEnv [] overCapState "BTCUSDT").tradeAttempted = true ∧
    (evaluatePair ⟨20, 10, 70⟩ overCapEnv [] overCapState "BTCUSDT").tradeExecuted = true ∧
    executeBinanceTrade 20 "paper" overCapDecision.size_usd =
      (ToolOutcome.rejectedCap, false) := by
  have h1 : ("BUY" : String) ≠ "HOLD" := by decide
  refine ⟨?_, ?_, ?_, ?_, ?_⟩
  · norm_num [schemaValid, overCapDecision]
  · norm_num [overCapDecision]
  · norm_num [evaluatePair, overCapEnv, overCapDecision, overCapState,
      createDefaultState, checkDailyReset, lookupBreaker, h1]
  · norm_num [evaluatePair, overCapEnv, overCapDecision, overCapState,
      createDefaultState, checkDailyReset, lookupBreaker, h1]
  · norm_num [executeBinanceTrade, overCapDecision]

/-! ## C4 — circuit-breaker state machine -/

theorem lookupBreaker_setBreaker (bks : List (String × CircuitBreaker))
    (pair : String) (b : CircuitBreaker) :
    lookupBreaker (setBreaker bks pair b) pair = some b := by
  induction bks with
  | nil => simp [setBreaker, lookupBreaker]
  | cons e es ih =>
    by_cases he : e.1 == pair
    · simp [setBreaker, he, lookupBreaker]
    · unfold setBreaker
      rw [if_neg (by simpa using he)]
      unfold lookupBreaker at ih ⊢
      rw [List.find?_cons]
      rw [Bool.not_eq_true] at he
      rw [he]
      exact ih

/-- C4: the per-symbol circuit breaker evolves as the specified state
machine.  (1) While `now < skipUntil` the symbol's evaluation is skipped
entirely: the run neither consults the engine nor trades, and leaves the
persisted state and every breaker (its error count included) unchanged.
(2) A cycle that runs to completion — whatever the decision and whether or
not a trade executed — resets the symbol's breaker to `{errors := 0,
skipUntil := 0}`.  (3) A failed cycle increments `errors` by one, and as
soon as the new count reaches 3 sets `skipUntil` to `now + 30` minutes
(otherwise `skipUntil` is kept). -/
theorem circuit_breaker_state_machine :
    (∀ (cfg : SchedulerConfig) (env : PairEnv) (bks : List (String × CircuitBreaker))
       (st : BotState) (pair : String) (b : CircuitBreaker),
       lookupBreaker bks pair = some b → env.now < b.skipUntil →
       evaluatePair cfg env bks st pair = ⟨st, bks, false, false, false⟩) ∧
    (∀ (cfg : SchedulerConfig) (env : PairEnv) (bks : List (String × CircuitBreaker))
       (st : BotState) (pair : String) (d : TradingDecision),
       (checkDailyReset env.today st).emergencyStop = false →
       ¬ ((checkDailyReset env.today st).dailyPnl < -cfg.dailyLossLimitUsd) →
       (∀ b, lookupBreaker bks pair = some b → b.skipUntil ≤ env.now) →
       env.volatilitySafe = true →
       env.engineResult = some d →
       (d.action = "HOLD" ∨ d.size_usd ≤ 0 ∨ env.positionCheckAllowed = true) →
       lookupBreaker (evaluatePair cfg env bks st pair).breakers pair =
         some ⟨0, 0⟩) ∧
    (∀ (cfg : SchedulerConfig) (env : PairEnv) (bks : List (String × CircuitBreaker))
       (st : BotState) (pair : String),
       (checkDailyReset env.today st).emergencyStop = false →
       ¬ ((checkDailyReset env.today st).dailyPnl < -cfg.dailyLossLimitUsd) →
       (∀ b, lookupBreaker bks pair = some b → b.skipUntil ≤ env.now) →
       env.volatilitySafe = true →
       env.engineResult = none →
       lookupBreaker (evaluatePair cfg env bks st pair).breakers pair =
         some ⟨((lookupBreaker bks pair).getD ⟨0, 0⟩).errors + 1,
               if 3 ≤ ((lookupBreaker bks pair).getD ⟨0, 0⟩).errors + 1
               then env.now + 30 * 60 * 1000
               else ((lookupBreaker bks pair).getD ⟨0, 0⟩).skipUntil⟩) := by
  refine ⟨?_, ?_, ?_⟩
  · intro cfg env bks st pair b hb hlt
    unfold evaluatePair
    by_cases h1 : (checkDailyReset env.today st).emergencyStop = true
    · simp [h1]
    · by_cases h2 : (checkDailyReset env.today st).dailyPnl < -cfg.dailyLossLimitUsd
      · simp [h1, h2]
      · simp [h1, h2, hb, hlt]
  · intro cfg env bks st pair d h1 h2 h3 hvol heng hcase
    have hbrk : (match lookupBreaker bks pair with
        | some b => decide (env.now < b.skipUntil)
        | none => false) = false := by
      cases hb : lookupBreaker bks pair with
      | none => rfl
      | some b => simpa using not_lt.mpr (h3 b hb)
    have hev : evaluatePair cfg env bks st pair =
        (if (d.action != "HOLD" && decide (0 < d.size_usd)) = true then
          if (!env.positionCheckAllowed) = true then
            ⟨st, bks, true, false, false⟩
          else
            match env.execResult with
            | some (orderId, price) =>
              if orderId ≠ 0 then
                ⟨completeTrade (checkDailyReset env.today st) pair d.action
                   d.size_usd price, setBreaker bks pair ⟨0, 0⟩, true, true, true⟩
              else ⟨st, setBreaker bks pair ⟨0, 0⟩, true, true, true⟩
            | none => ⟨st, setBreaker bks pair ⟨0, 0⟩, true, true, false⟩
        else ⟨st, setBreaker bks pair ⟨0, 0⟩, true, false, false⟩ : PairResult) := by
      unfold evaluatePair
      rw [if_neg (by simp [h1]), if_neg h2, if_neg (by simp [hbrk]),
          if_neg (by simp [hvol]), heng]
    rw [hev]
    by_cases hact : (d.action != "HOLD" && decide (0 < d.size_usd)) = true
    · have hallowed : env.positionCheckAllowed = true := by
        rcases hcase with hh | hh | hh
        · exfalso
          simp only [Bool.and_eq_true, bne_iff_ne, ne_eq, decide_eq_true_eq] at hact
          exact hact.1 hh
        · exfalso
          simp only [Bool.and_eq_true, bne_iff_ne, ne_eq, decide_eq_true_eq] at hact
          exact absurd hact.2 (not_lt.mpr hh)
        · exact hh
      rw [if_pos hact, if_neg (by simp [hallowed])]
      cases hexec : env.execResult with
      | none => simp [lookupBreaker_setBreaker]
      | some pr =>
        obtain ⟨orderId, price⟩ := pr
        by_cases hord : orderId ≠ 0 <;> simp [hord, lookupBreaker_setBreaker]
    · rw [if_neg hact]
      exact lookupBreaker_setBreaker bks pair ⟨0, 0⟩
  · intro cfg env bks st pair h1 h2 h3 hvol heng
    have hbrk : (match lookupBreaker bks pair with
        | some b => decide (env.now < b.skipUntil)
        | none => false) = false := by
      cases hb : lookupBreaker bks pair with
      | none => rfl
      | some b => simpa using not_lt.mpr (h3 b hb)
    have hev : evaluatePair cfg env bks st pair =
        ⟨st, failBreaker bks pair env.now, true, false, false⟩ := by
      unfold evaluatePair
      rw [if_neg (by simp [h1]), if_neg h2, if_neg (by simp [hbrk]),
          if_neg (by simp [hvol]), heng]
    rw [hev]
    have hgoal : lookupBreaker (failBreaker bks pair env.now) pair =
        some (if 3 ≤ ((lookupBreaker bks pair).getD ⟨0, 0⟩).errors + 1
              then ⟨((lookupBreaker bks pair).getD ⟨0, 0⟩).errors + 1,
                    env.now + 30 * 60 * 1000⟩
              else ⟨((lookupBreaker bks pair).getD ⟨0, 0⟩).errors + 1,
                    ((lookupBreaker bks pair).getD ⟨0, 0⟩).skipUntil⟩) :=
      lookupBreaker_setBreaker bks pair _
    rw [hgoal]
    by_cases h3le : 3 ≤ ((lookupBreaker bks pair).getD ⟨0, 0⟩).errors + 1
    · rw [if_pos h3le, if_pos h3le]
    · rw [if_neg h3le, if_neg h3le]

/-- State used by the C4 witness (fresh default state for 2026-01-01). -/
def breakerWitnessState : BotState := createDefaultState "2026-01-01" "t"

/-- C4 witness environment: cooldown active (`now = 50 < skipUntil = 100`). -/
def breakerSkipEnv : PairEnv :=
  { today := "2026-01-01", now := 50, volatilitySafe := true,
    engineResult := none, positionCheckAllowed := true, execResult := none }

/-- C4 witness environment: a completed cycle whose decision is HOLD. -/
def breakerHoldEnv : PairEnv :=
  { today := "2026-01-01", now := 50, volatilitySafe := true,
    engineResult := some ⟨"HOLD", 0, "no signal", 0⟩,
    positionCheckAllowed := true, execResult := none }

/-- C4 witness environment: a failed cycle (the engine threw). -/
def breakerFailEnv : PairEnv :=
  { today := "2026-01-01", now := 50, volatilitySafe := true,
    engineResult := none, positionCheckAllowed := true, execResult := none }

/-- Witness for C4: the three transitions at concrete inputs. -/
theorem circuit_breaker_state_machine_witness :
    evaluatePair ⟨20, 10, 70⟩ breakerSkipEnv [("BTCUSDT", ⟨3, 100⟩)]
        breakerWitnessState "BTCUSDT" =
      ⟨breakerWitnessState, [("BTCUSDT", ⟨3, 100⟩)], false, false, false⟩ ∧
    lookupBreaker (evaluatePair ⟨20, 10, 70⟩ breakerHoldEnv []
        breakerWitnessState "BTCUSDT").breakers "BTCUSDT" = some ⟨0, 0⟩ ∧
    lookupBreaker (evaluatePair ⟨20, 10, 70⟩ breakerFailEnv []
        breakerWitnessState "BTCUSDT").breakers "BTCUSDT" =
      some ⟨((lookupBreaker ([] : List (String × CircuitBreaker)) "BTCUSDT").getD
               ⟨0, 0⟩).errors + 1,
            if 3 ≤ ((lookupBreaker ([] : List (String × CircuitBreaker))
                      "BTCUSDT").getD ⟨0, 0⟩).errors + 1
            then breakerFailEnv.now + 30 * 60 * 1000
            else ((lookupBreaker ([] : List (String × CircuitBreaker))
                    "BTCUSDT").getD ⟨0, 0⟩).skipUntil⟩ :=
  ⟨circuit_breaker_state_machine.1 ⟨20, 10, 70⟩ breakerSkipEnv
     [("BTCUSDT", ⟨3, 100⟩)] breakerWitnessState "BTCUSDT" ⟨3, 100⟩
     (by decide) (by decide),
   circuit_breaker_state_machine.2.1 ⟨20, 10, 70⟩ breakerHoldEnv []
     breakerWitnessState "BTCUSDT" ⟨"HOLD", 0, "no signal", 0⟩
     (by decide)
     (by norm_num [checkDailyReset, breakerWitnessState, createDefaultState,
           breakerHoldEnv])
     (by intro b hb; simp [lookupBreaker] at hb)
     rfl rfl (Or.inl rfl),
   circuit_breaker_state_machine.2.2 ⟨20, 10, 70⟩ breakerFailEnv []
     breakerWitnessState "BTCUSDT"
     (by decide)
     (by norm_num [checkDailyReset, breakerWitnessState, createDefaultState,
           breakerFailEnv])
     (by intro b hb; simp [lookupBreaker] at hb)
     rfl rfl⟩

/-! ## C3 — emergency stop blocks everything -/

theorem checkDailyReset_emergencyStop (today : String) (st : BotState) :
    (checkDailyReset today st).emergencyStop = st.emergencyStop := by
  unfold checkDailyReset
  split <;> rfl

theorem evaluatePair_emergency (cfg : SchedulerConfig) (env : PairEnv)
    (bks : List (String × CircuitBreaker)) (st : BotState) (pair : String)
    (h : st.emergencyStop = true) :
    evaluatePair cfg env bks st pair = ⟨st, bks, false, false, false⟩ := by
  unfold evaluatePair
  rw [if_pos (by rw [checkDailyReset_emergencyStop]; exact h)]

theorem runLoop_fold_emergency (cfg : SchedulerConfig) (envs : String → PairEnv)
    (store : BotState) (h : store.emergencyStop = true) :
    ∀ (pairs : List String) (bks : List (String × CircuitBreaker)) (e x : ℕ),
      pairs.foldl
        (fun acc pair =>
          let r := evaluatePair cfg (envs pair) acc.2.1 acc.1 pair
          (r.state, r.breakers,
           acc.2.2.1 + (if r.engineEvaluated then 1 else 0),
           acc.2.2.2 + (if r.tradeExecuted then 1 else 0)))
        (store, bks, e, x) = (store, bks, e, x) := by
  intro pairs
  induction pairs with
  | nil => intro bks e x; rfl
  | cons p ps ih =>
    intro bks e x
    rw [List.foldl_cons]
    simp only [evaluatePair_emergency cfg (envs p) bks store p h]
    norm_num
    exact ih bks e x

theorem runLoop_emergency (cfg : SchedulerConfig) (envs : String → PairEnv)
    (bks : List (String × CircuitBreaker)) (store : BotState) (today : String)
    (h : store.emergencyStop = true) :
    runLoop cfg envs bks store today = (store, bks, 0, 0) := by
  unfold runLoop
  exact runLoop_fold_emergency cfg envs store h _ bks 0 0

theorem runPortfolioManager_emergency (env : PortfolioEnv) (store : BotState)
    (h : store.emergencyStop = true) :
    runPortfolioManager env store = (store, false, 0) := by
  unfold runPortfolioManager
  rw [if_pos (by rw [checkDailyReset_emergencyStop]; exact h)]

theorem runCycle_emergency (cfg : SchedulerConfig)
    (bks : List (String × CircuitBreaker)) (store : BotState) (c : Cycle)
    (h : store.emergencyStop = true) :
    runCycle cfg bks store c = (store, bks, 0, 0) := by
  cases c with
  | fast today envs => exact runLoop_emergency cfg envs bks store today h
  | slow env =>
    simp [runCycle, runPortfolioManager_emergency env store h]

/-- C3: whenever the persisted `emergencyStop` flag is true when a
scheduled cycle loads state, no evaluation and no trade execution occurs in
that cycle — fast per-symbol cycles and hourly portfolio-rebalance cycles
alike — and this holds across any list of scheduled cycles, since the
persisted state (the flag included) is left untouched: the run performs
zero oracle consultations/engine evaluations and zero trade executions. -/
theorem emergency_stop_blocks_cycles (cfg : SchedulerConfig)
    (bks : List (String × CircuitBreaker)) (store : BotState)
    (cycles : List Cycle) (hstop : store.emergencyStop = true) :
    runCycles cfg bks store cycles = (store, bks, 0, 0) := by
  induction cycles with
  | nil => rfl
  | cons c cs ih =>
    unfold runCycles
    rw [runCycle_emergency cfg bks store c hstop]
    simp only []
    rw [ih]
    rfl

/-- The persisted state of the C3 witness: emergency stop set while a
position is held. -/
def emergencyWitnessState : BotState :=
  { version := 1, positions := [⟨"BTCUSDT", 1, 100⟩], lastCheckTimes := [],
    cumulativePnl := 0, dailyPnl := 0, dailyLossCount := 0,
    lastDailyReset := "2026-01-01", errorCounts := [], emergencyStop := true,
    lastUpdated := "t" }

/-- Fast-cycle environment of the C3 witness (would evaluate if allowed). -/
def emergencyPairEnv : PairEnv :=
  { today := "2026-01-01", now := 0, volatilitySafe := true,
    engineResult := some ⟨"HOLD", 0, "no signal", 0⟩,
    positionCheckAllowed := true, execResult := none }

/-- Slow-cycle environment of the C3 witness (would buy if allowed). -/
def emergencySlowEnv : PortfolioEnv :=
  { today := "2026-01-01",
    consult := some [⟨"ETHUSDT", "BUY", 20, "rebalance"⟩],
    tradeEnv := fun _ =>
      { today := "2026-01-01", price := some 100, execResult := some (1, 100) } }

/-- Witness for C3: a fast cycle followed by a rebalance cycle under the
set flag performs zero evaluations and zero executions and leaves the
persisted state unchanged. -/
theorem emergency_stop_blocks_cycles_witness :
    emergencyWitnessState.emergencyStop = true ∧
    runCycles ⟨20, 10, 70⟩ [] emergencyWitnessState
        [Cycle.fast "2026-01-01" (fun _ => emergencyPairEnv),
         Cycle.slow emergencySlowEnv] =
      (emergencyWitnessState, [], 0, 0) :=
  ⟨rfl,
   emergency_stop_blocks_cycles ⟨20, 10, 70⟩ [] emergencyWitnessState
     [Cycle.fast "2026-01-01" (fun _ => emergencyPairEnv),
      Cycle.slow emergencySlowEnv] rfl⟩

/-! ## C6 — portfolio recommendation validation -/

theorem foldl_mem_invariant {α β : Type} (f : List β → α → List β) (P : β → Prop)
    (hf : ∀ acc a x, x ∈ f acc a → x ∈ acc ∨ P x) :
    ∀ (l : List α) (init : List β), (∀ x ∈ init, P x) →
      ∀ x ∈ l.foldl f init, P x := by
  intro l
  induction l with
  | nil => intro init hinit x hx; exact hinit x hx
  | cons a as ih =>
    intro init hinit x hx
    rw [List.foldl_cons] at hx
    refine ih (f init a) ?_ x hx
    intro y hy
    rcases hf init a y hy with hmem | hp
    · exact hinit y hmem
    · exact hp

theorem parseRecStep_mem (mp : ℕ) (cap : ℚ) (cs : ℕ)
    (acc : List PortfolioRecommendation) (rec : RawRec)
    (x : PortfolioRecommendation) (hx : x ∈ parseRecStep mp cap cs acc rec) :
    x ∈ acc ∨ (x.action ≠ "HOLD" ∧ x.symbol ≠ "" ∧ x.symbol ≠ "USDT" ∧
      x.amountUsd ≤ cap ∧ (mp ≤ cs → x.action ≠ "BUY")) := by
  simp only [parseRecStep] at hx
  by_cases h1 : (rec.action == "HOLD") = true
  · rw [if_pos h1] at hx
    exact Or.inl hx
  · rw [if_neg h1] at hx
    by_cases h2 : ((toUpperAscii (rec.symbol.getD "") == "")
        || (toUpperAscii (rec.symbol.getD "") == "USDT")) = true
    · rw [if_pos h2] at hx
      exact Or.inl hx
    · rw [if_neg h2] at hx
      by_cases h3 : (rec.action == "BUY" && decide (mp ≤ cs)) = true
      · rw [if_pos h3] at hx
        exact Or.inl hx
      · rw [if_neg h3] at hx
        rcases List.mem_append.mp hx with hmem | hnew
        · exact Or.inl hmem
        · rw [List.mem_singleton] at hnew
          subst hnew
          rw [Bool.or_eq_true, not_or] at h2
          obtain ⟨h2a, h2b⟩ := h2
          refine Or.inr ⟨by simpa using h1, by simpa using h2a,
            by simpa using h2b, min_le_right _ _, ?_⟩
          intro hmp
          rw [Bool.and_eq_true, not_and] at h3
          intro hbuy
          have hb : (rec.action == "BUY") = true := by simpa using hbuy
          exact h3 hb (by simpa using hmp)

/-- C6: the validated recommendation list produced from any raw reply
contains no entry with action `HOLD`, none with an empty or `USDT` symbol,
and every entry's `amountUsd` is at most the configured cap; once the
number of (distinct) held symbols has reached the configured maximum, no
BUY entry survives; and a BUY reaching `executePortfolioBuy` while five or
more positions are held is recorded as a rejection — no exchange request is
made and the state is untouched. -/
theorem portfolio_recommendations_validated (maxPositions : ℕ) (cap : ℚ)
    (recs : List RawRec) (currentPositions : List Position) :
    (∀ r ∈ parseRecommendations maxPositions cap recs currentPositions,
        r.action ≠ "HOLD" ∧ r.symbol ≠ "" ∧ r.symbol ≠ "USDT" ∧
          r.amountUsd ≤ cap) ∧
    (maxPositions ≤ ((currentPositions.map (·.symbol)).dedup).length →
        ∀ r ∈ parseRecommendations maxPositions cap recs currentPositions,
          r.action ≠ "BUY") ∧
    (∀ (env : PortfolioTradeEnv) (store : BotState)
        (rec : PortfolioRecommendation),
        5 ≤ (checkDailyReset env.today store).positions.length →
        executePortfolioBuy env store rec =
          ⟨store, false, RecOutcome.rejected "Max positions (5) reached"⟩) := by
  have hall := foldl_mem_invariant
    (parseRecStep maxPositions cap ((currentPositions.map (·.symbol)).dedup).length)
    (fun x => x.action ≠ "HOLD" ∧ x.symbol ≠ "" ∧ x.symbol ≠ "USDT" ∧
      x.amountUsd ≤ cap ∧
      (maxPositions ≤ ((currentPositions.map (·.symbol)).dedup).length →
        x.action ≠ "BUY"))
    (fun acc a x hx => parseRecStep_mem _ _ _ acc a x hx) recs [] (by simp)
  refine ⟨?_, ?_, ?_⟩
  · intro r hr
    have hprop := hall r (by simpa [parseRecommendations] using hr)
    exact ⟨hprop.1, hprop.2.1, hprop.2.2.1, hprop.2.2.2.1⟩
  · intro hmp r hr
    have hprop := hall r (by simpa [parseRecommendations] using hr)
    exact hprop.2.2.2.2 hmp
  · intro env store rec h5
    unfold executePortfolioBuy
    rw [if_pos h5]

/-- Raw recommendation list of the C6 witness: an over-cap lowercase BUY, a
HOLD, and a stablecoin entry. -/
def rawRecsWitness : List RawRec :=
  [⟨some "ethusdt", "BUY", some 50, some "momentum"⟩,
   ⟨some "SOLUSDT", "HOLD", none, none⟩,
   ⟨some "usdt", "SELL", some 5, none⟩]

/-- A five-position state for the C6 witness. -/
def fivePositionsState : BotState :=
  { version := 1,
    positions := [⟨"A", 1, 1⟩, ⟨"B", 1, 1⟩, ⟨"C", 1, 1⟩, ⟨"D", 1, 1⟩, ⟨"E", 1, 1⟩],
    lastCheckTimes := [], cumulativePnl := 0, dailyPnl := 0, dailyLossCount := 0,
    lastDailyReset := "2026-01-01", errorCounts := [], emergencyStop := false,
    lastUpdated := "t" }

/-- Witness for C6: the surviving entry of the concrete reply satisfies the
filters with its amount clamped to the cap, and a BUY against a
five-position state is rejected without an exchange request. -/
theorem portfolio_recommendations_validated_witness :
    ((⟨"ETHUSDT", "BUY", 20, "momentum"⟩ : PortfolioRecommendation).action ≠ "HOLD" ∧
      (⟨"ETHUSDT", "BUY", 20, "momentum"⟩ : PortfolioRecommendation).symbol ≠ "" ∧
      (⟨"ETHUSDT", "BUY", 20, "momentum"⟩ : PortfolioRecommendation).symbol ≠ "USDT" ∧
      (⟨"ETHUSDT", "BUY", 20, "momentum"⟩ : PortfolioRecommendation).amountUsd ≤ 20) ∧
    executePortfolioBuy ⟨"2026-01-01", some 100, some (1, 100)⟩ fivePositionsState
        ⟨"ETHUSDT", "BUY", 20, "momentum"⟩ =
      ⟨fivePositionsState, false, RecOutcome.rejected "Max positions (5) reached"⟩ :=
  ⟨(portfolio_recommendations_validated 5 20 rawRecsWitness []).1
      ⟨"ETHUSDT", "BUY", 20, "momentum"⟩
      (by decide),
   (portfolio_recommendations_validated 5 20 rawRecsWitness []).2.2
      ⟨"2026-01-01", some 100, some (1, 100)⟩ fivePositionsState
      ⟨"ETHUSDT", "BUY", 20, "momentum"⟩
      (by norm_num [checkDailyReset, fivePositionsState])⟩
